import Mathlib

/-!
Verification of the core ingestion/aggregation/publication pipeline of the
algo-trading dashboard (`src/app/page.tsx`).

JavaScript numbers are modelled as rationals (`ℚ`), machine time stamps as
rational milliseconds, and unknown inbound frames as a JSON-like value type.
Stateful React pieces (the aggregation store held in `useState` hooks, and the
`useRafThrottle` publication throttle) are modelled as explicit state-passing
functions and event-trace state machines.
-/

namespace AlgoTradingUI

/-! ## Configuration constants (src/app/page.tsx lines 10-21) -/

def MAX_SIGNALS : ℕ := 500
def MAX_TRADE_LOGS : ℕ := 1000
def MAX_SYS_LOGS : ℕ := 200
def UI_FPS : ℚ := 4

def DAILY_MAX_LOSS : ℚ := 5000
def MARGIN_WARN_PCT : ℚ := 90
def WARN_FRACTION : ℚ := 8 / 10

/-! ## Bounded push helper (src/app/page.tsx lines 131-134)

`function pushBounded<T>(arr: T[], item: T, max: number): T[] {`
`  const next = [item, ...arr];`
`  return next.length > max ? next.slice(0, max) : next;`
`}` -/

def pushBounded {α : Type} (arr : List α) (item : α) (max : ℕ) : List α :=
  let next := item :: arr
  if next.length > max then next.take max else next

/-- Folding a whole sequence of pushes (oldest first) into an initially empty
bounded buffer of capacity `N`. -/
def foldPushes {α : Type} (N : ℕ) (items : List α) : List α :=
  items.foldl (fun acc it => pushBounded acc it N) []

/-! ## Domain enumerations -/

inductive Instrument where
  | NIFTY
  | BANKNIFTY
deriving DecidableEq

def instrName : Instrument → String
  | .NIFTY => "NIFTY"
  | .BANKNIFTY => "BANKNIFTY"

inductive Side where
  | Buy
  | Sell
deriving DecidableEq

def sideName : Side → String
  | .Buy => "Buy"
  | .Sell => "Sell"

/-! ## Numeric helpers

`Number(x.toFixed(2))` is modelled as rounding to the nearest multiple of
1/100 (ties rounded up). -/

def round2 (q : ℚ) : ℚ := ((round (q * 100) : ℤ) : ℚ) / 100

/-- Truncation toward zero, as used by the JavaScript `%` operator. -/
def ratTrunc (q : ℚ) : ℤ := if 0 ≤ q then ⌊q⌋ else ⌈q⌉

/-- JavaScript remainder `a % b` (sign follows the dividend). -/
def jsMod (a b : ℚ) : ℚ := a - b * ((ratTrunc (a / b) : ℤ) : ℚ)

/-- `String.prototype.includes`: `s.includes(sub)` is substring containment. -/
def containsSubstr (s sub : String) : Bool := decide (sub.data <:+: s.data)

/-- Decimal rendering used for `ltp.toFixed(2)` in log lines. -/
def toFixed2 (q : ℚ) : String :=
  let n : ℤ := round (q * 100)
  let sign := if n < 0 then "-" else ""
  let m := n.natAbs
  let f := m % 100
  sign ++ toString (m / 100) ++ "." ++ (if f < 10 then "0" else "") ++ toString f

/-! ## Derivation engine (src/app/page.tsx lines 65-79) -/

def clamp (n min' max' : ℚ) : ℚ := max min' (min max' n)

/-- `calcPnLPct` (lines 68-73): 0 on zero (falsy) `avgPrice`, else the
side-dependent percentage. -/
def calcPnLPct (side : Side) (avgPrice ltp : ℚ) : ℚ :=
  if avgPrice = 0 then 0
  else if side = .Buy then (ltp - avgPrice) / avgPrice * 100
  else (avgPrice - ltp) / avgPrice * 100

/-- `calcPnLAbs` (lines 76-79). -/
def calcPnLAbs (side : Side) (avgPrice ltp qty : ℚ) : ℚ :=
  (if side = .Buy then ltp - avgPrice else avgPrice - ltp) * qty

inductive RiskTier where
  | Normal
  | Warn
  | Breach
deriving DecidableEq

/-- Risk classification computed by `RiskBadge` (lines 386-389):
`breach = dailyLoss >= DAILY_MAX_LOSS || marginUsedPct >= MARGIN_WARN_PCT`;
`warn = !breach && (dailyLoss >= DAILY_MAX_LOSS * WARN_FRACTION ||`
`                   marginUsedPct >= MARGIN_WARN_PCT * WARN_FRACTION)`. -/
def riskLevel (dailyLoss marginUsedPct : ℚ) : RiskTier :=
  if dailyLoss ≥ DAILY_MAX_LOSS ∨ marginUsedPct ≥ MARGIN_WARN_PCT then .Breach
  else if dailyLoss ≥ DAILY_MAX_LOSS * WARN_FRACTION
        ∨ marginUsedPct ≥ MARGIN_WARN_PCT * WARN_FRACTION then .Warn
  else .Normal

/-! ## Raw inbound values and the message classifier (lines 32-55)

Unknown JavaScript values arriving on the socket are modelled as a JSON-like
inductive type; absent object properties read as `undef`. -/

inductive JsVal where
  | null
  | undef
  | bool (b : Bool)
  | num (q : ℚ)
  | str (s : String)
  | obj (fields : List (String × JsVal))

/-- Property access `x.k`: `undef` on non-objects and absent keys. -/
def getField : JsVal → String → JsVal
  | .obj fields, k =>
    match fields.find? (fun p => p.1 == k) with
    | some p => p.2
    | none => .undef
  | _, _ => .undef

def isObjVal : JsVal → Bool
  | .obj _ => true
  | _ => false

def isNumVal : JsVal → Bool
  | .num _ => true
  | _ => false

def isStrVal : JsVal → Bool
  | .str _ => true
  | _ => false

def isUndefVal : JsVal → Bool
  | .undef => true
  | _ => false

/-- `v === "s"` for a string literal `s`. -/
def strEq (v : JsVal) (s : String) : Bool :=
  match v with
  | .str t => t == s
  | _ => false

/-- `isTickMsg` (lines 35-37). -/
def isTickMsg (x : JsVal) : Bool :=
  isObjVal x && strEq (getField x "type") "tick"
    && (strEq (getField x "symbol") "NIFTY" || strEq (getField x "symbol") "BANKNIFTY")
    && isNumVal (getField x "ltp") && isNumVal (getField x "t")

/-- `isSignalMsg` (lines 38-46): only `typeof` checks on the payload fields —
no non-emptiness or positivity requirements. -/
def isSignalMsg (x : JsVal) : Bool :=
  isObjVal x && strEq (getField x "type") "signal"
    && (strEq (getField x "instrument") "NIFTY" || strEq (getField x "instrument") "BANKNIFTY")
    && isObjVal (getField x "payload")
    && isStrVal (getField (getField x "payload") "symbol")
    && (strEq (getField (getField x "payload") "side") "Buy"
        || strEq (getField (getField x "payload") "side") "Sell")
    && isNumVal (getField (getField x "payload") "qty")
    && isNumVal (getField (getField x "payload") "price")
    && isStrVal (getField (getField x "payload") "status")

/-- `isRiskMsg` (lines 47-49): each risk field must be a number or undefined;
no field is required to be present. -/
def isRiskMsg (x : JsVal) : Bool :=
  isObjVal x && strEq (getField x "type") "risk"
    && (isNumVal (getField x "dailyLoss") || isUndefVal (getField x "dailyLoss"))
    && (isNumVal (getField x "marginUsedPct") || isUndefVal (getField x "marginUsedPct"))

/-! ## Classified messages -/

structure SignalPayload where
  symbol : String
  side : Side
  qty : ℚ
  price : ℚ
  status : String
deriving DecidableEq

inductive StreamMsg where
  | tick (symbol : Instrument) (ltp : ℚ) (t : ℚ)
  | signal (instrument : Instrument) (payload : SignalPayload)
  | risk (dailyLoss : Option ℚ) (marginUsedPct : Option ℚ)
deriving DecidableEq

/-- Extraction defaults; under a successful classification these defaults are
never reached. -/
def asNumD (v : JsVal) : ℚ :=
  match v with
  | .num q => q
  | _ => 0

def asStrD (v : JsVal) : String :=
  match v with
  | .str s => s
  | _ => ""

def optNumOf (v : JsVal) : Option ℚ :=
  match v with
  | .num q => some q
  | _ => none

def instrOf (v : JsVal) : Instrument :=
  if strEq v "BANKNIFTY" then .BANKNIFTY else .NIFTY

def sideOf (v : JsVal) : Side :=
  if strEq v "Sell" then .Sell else .Buy

/-- `asStreamMsg` (lines 50-55): classify, then read off the typed fields. -/
def asStreamMsg (x : JsVal) : Option StreamMsg :=
  if isTickMsg x then
    some (.tick (instrOf (getField x "symbol")) (asNumD (getField x "ltp"))
      (asNumD (getField x "t")))
  else if isSignalMsg x then
    let p := getField x "payload"
    some (.signal (instrOf (getField x "instrument"))
      ⟨asStrD (getField p "symbol"), sideOf (getField p "side"),
       asNumD (getField p "qty"), asNumD (getField p "price"),
       asStrD (getField p "status")⟩)
  else if isRiskMsg x then
    some (.risk (optNumOf (getField x "dailyLoss")) (optNumOf (getField x "marginUsedPct")))
  else none

/-! ## Aggregation store (the `useState` hooks of `TradingDashboard`,
lines 406-423, and the `onMessage` handler, lines 453-488) -/

structure Trade where
  symbol : String
  side : Side
  qty : ℚ
  avgPrice : ℚ
  ltp : ℚ
  status : String
deriving DecidableEq

/-- The tick-branch trade update (line 459):
`arr.map(tr => tr.symbol.includes(symbol) ? { ...tr, ltp: Number(ltp.toFixed(2)) } : tr)`. -/
def upd (symbol : String) (ltp : ℚ) (arr : List Trade) : List Trade :=
  arr.map fun tr =>
    if containsSubstr tr.symbol symbol then { tr with ltp := round2 ltp } else tr

structure Store where
  nifty : ℚ
  bankNifty : ℚ
  dailyLoss : ℚ
  marginUsedPct : ℚ
  signalsN : List SignalPayload
  tradesN : List Trade
  logsN : List String
  signalsB : List SignalPayload
  tradesB : List Trade
  logsB : List String
  sysLogs : List String
deriving DecidableEq

/-- The `onMessage` handler (lines 453-488) as a state transition.  Wall-clock
rendering (`new Date(..).toLocaleTimeString()`) is environmental and passed in
as `fmtTime` (for tick timestamps) and `nowStr` (for the current time). -/
def applyMsg (fmtTime : ℚ → String) (nowStr : String) : StreamMsg → Store → Store
  | .tick symbol ltp t, st =>
    let st1 := if symbol = .NIFTY then { st with nifty := round2 ltp } else st
    let st2 := if symbol = .BANKNIFTY then { st1 with bankNifty := round2 ltp } else st1
    let st3 := { st2 with tradesN := upd (instrName symbol) ltp st2.tradesN,
                          tradesB := upd (instrName symbol) ltp st2.tradesB }
    if jsMod t 2000 < 120 then
      let line := fmtTime t ++ " " ++ instrName symbol ++ " " ++ toFixed2 ltp
      if symbol = .NIFTY then { st3 with logsN := pushBounded st3.logsN line MAX_SYS_LOGS }
      else { st3 with logsB := pushBounded st3.logsB line MAX_SYS_LOGS }
    else st3
  | .signal instrument p, st =>
    let logLine := nowStr ++ " " ++ instrName instrument ++ " " ++ sideName p.side
      ++ " " ++ toString p.qty ++ " " ++ p.symbol ++ " @ " ++ toString p.price
    let tr : Trade := { symbol := p.symbol, side := p.side, qty := p.qty,
                        avgPrice := p.price, ltp := p.price, status := p.status }
    if instrument = .BANKNIFTY then
      { st with signalsB := pushBounded st.signalsB p MAX_SIGNALS,
                tradesB := pushBounded st.tradesB tr MAX_TRADE_LOGS,
                logsB := pushBounded st.logsB logLine MAX_SYS_LOGS }
    else
      { st with signalsN := pushBounded st.signalsN p MAX_SIGNALS,
                tradesN := pushBounded st.tradesN tr MAX_TRADE_LOGS,
                logsN := pushBounded st.logsN logLine MAX_SYS_LOGS }
  | .risk dl m, st =>
    let st1 := match dl with
               | some d => { st with dailyLoss := d }
               | none => st
    let st2 := match m with
               | some q => { st1 with marginUsedPct := q }
               | none => st1
    { st2 with sysLogs := pushBounded st2.sysLogs (nowStr ++ " risk update") MAX_SYS_LOGS }

/-- `ws.onmessage` (lines 194-199): classify the parsed frame; forward it only
when classification succeeds, otherwise the store is left alone. -/
def stepFrame (fmtTime : ℚ → String) (nowStr : String) (x : JsVal) (st : Store) : Store :=
  match asStreamMsg x with
  | some m => applyMsg fmtTime nowStr m st
  | none => st

/-! ## Reconnect backoff (lines 201-207)

`const delay = Math.min(30000, Math.pow(2, reconnectAttempt) * 500 + Math.random() * 300);`
`reconnectAttempt += 1;`
`handlers.onReconnect?.(reconnectAttempt, delay);` -/

def delayOf (attempt : ℕ) (jitter : ℚ) : ℚ :=
  min 30000 (2 ^ attempt * 500 + jitter)

/-- The `ws.onclose` step: new attempt counter and the scheduled delay. -/
def oncloseStep (attempt : ℕ) (jitter : ℚ) : ℕ × ℚ :=
  (attempt + 1, delayOf attempt jitter)

/-! ## Publication throttle `useRafThrottle` (lines 82-106)

Modelled as a state machine driven by an event trace.  A `change v t` event is
the effect body re-running for a new input value at time `t` (the previous
effect's cleanup has already cancelled any pending animation frame).  A `raf t`
event is a scheduled animation-frame callback firing at time `t`; a cancelled
frame never fires, so a pending deferred value is simply replaced.  A publish
is a `setThrottled` call, recorded as (time, value). -/

structure ThState (α : Type) where
  throttled : α
  lastTime : ℚ
  pending : Option α

inductive ThEvent (α : Type) where
  | change (v : α) (t : ℚ)
  | raf (t : ℚ)

def thStep {α : Type} (interval : ℚ) (s : ThState α) : ThEvent α → ThState α × Option (ℚ × α)
  | .change v t =>
    if t - s.lastTime ≥ interval then
      ({ throttled := v, lastTime := t, pending := none }, some (t, v))
    else
      ({ s with pending := some v }, none)
  | .raf t =>
    match s.pending with
    | some v => ({ throttled := v, lastTime := t, pending := none }, some (t, v))
    | none => (s, none)

def thRun {α : Type} (interval : ℚ) (s : ThState α) : List (ThEvent α) → ThState α × List (ℚ × α)
  | [] => (s, [])
  | e :: es =>
    let sp := thStep interval s e
    let rest := thRun interval sp.1 es
    (rest.1, sp.2.toList ++ rest.2)

/-- The value carried by the last `change` event of a trace (default `d`). -/
def lastChangeD {α : Type} (d : α) (events : List (ThEvent α)) : α :=
  events.foldl (fun acc e => match e with | .change v _ => v | .raf _ => acc) d

/-- Number of publishes falling in the half-open window `[t0, t0 + len)`. -/
def pubsInWindow {α : Type} (pubs : List (ℚ × α)) (t0 len : ℚ) : ℕ :=
  (pubs.filter fun p => decide (t0 ≤ p.1) && decide (p.1 < t0 + len)).length

theorem length_pushBounded {α : Type} (arr : List α) (x : α) (N : ℕ)
    (h : arr.length ≤ N) :
    (pushBounded arr x N).length = min (arr.length + 1) N := by
  simp only [pushBounded]
  split_ifs with hl
  · simp only [List.length_take, List.length_cons]
    omega
  · simp only [List.length_cons]
    simp only [List.length_cons] at hl
    omega

theorem head?_pushBounded {α : Type} (arr : List α) (x : α) (N : ℕ)
    (hN : 0 < N) :
    (pushBounded arr x N).head? = some x := by
  simp only [pushBounded]
  split_ifs with hl
  · cases N with
    | zero => omega
    | succ n => simp [List.take_succ_cons]
  · simp

theorem length_foldl_pushBounded {α : Type} (N : ℕ) (items : List α) :
    ∀ acc : List α, acc.length ≤ N →
      (items.foldl (fun a it => pushBounded a it N) acc).length
        = min (acc.length + items.length) N := by
  induction items with
  | nil => intro acc hacc; simpa using by omega
  | cons it rest ih =>
    intro acc hacc
    have hstep : (pushBounded acc it N).length = min (acc.length + 1) N :=
      length_pushBounded acc it N hacc
    have hle : (pushBounded acc it N).length ≤ N := by omega
    have := ih (pushBounded acc it N) hle
    simp only [List.foldl_cons, List.length_cons]
    rw [this, hstep]
    omega

/-- C1: for every sequence of pushes via `pushBounded` with capacity `N`,
starting from the empty list, the resulting length is `min(totalPushes, N)`
(so `length ≤ N` after every operation), and the head of the buffer is the
most recently pushed item. -/
theorem bounded_buffer_min_length_and_head {α : Type} (N : ℕ) (items : List α) :
    (foldPushes N items).length = min items.length N ∧
    (foldPushes N items).length ≤ N ∧
    (∀ x : α, 0 < N → (foldPushes N (items ++ [x])).head? = some x) := by
  have hlen : ∀ its : List α, (foldPushes N its).length = min its.length N := by
    intro its
    have h := length_foldl_pushBounded N its [] (by simp)
    simpa [foldPushes] using h
  refine ⟨hlen items, ?_, ?_⟩
  · have := hlen items; omega
  · intro x hN
    have hfold : foldPushes N (items ++ [x]) = pushBounded (foldPushes N items) x N := by
      simp [foldPushes, List.foldl_append]
    rw [hfold]
    exact head?_pushBounded _ x N hN

/-- C1 witness: capacity 2, four pushes. -/
theorem bounded_buffer_min_length_and_head_witness :
    (foldPushes 2 [1, 2, 3]).length = min 3 2 ∧
    (foldPushes 2 [1, 2, 3]).length ≤ 2 ∧
    (foldPushes 2 ([1, 2, 3] ++ [4])).head? = some 4 := by
  obtain ⟨h1, h2, h3⟩ := bounded_buffer_min_length_and_head 2 [1, 2, 3]
  exact ⟨h1, h2, h3 4 (by decide)⟩

/-- C2: the risk classification is `Breach` exactly when
`dailyLoss ≥ DAILY_MAX_LOSS` or `marginUsedPct ≥ MARGIN_WARN_PCT` (equality
included); otherwise `Warn` exactly when either quantity reaches 0.8 of its
threshold; otherwise `Normal`. -/
theorem riskLevel_breach_warn_normal (dailyLoss marginUsedPct : ℚ) :
    (riskLevel dailyLoss marginUsedPct = .Breach ↔
      dailyLoss ≥ DAILY_MAX_LOSS ∨ marginUsedPct ≥ MARGIN_WARN_PCT) ∧
    (riskLevel dailyLoss marginUsedPct = .Warn ↔
      ¬(dailyLoss ≥ DAILY_MAX_LOSS ∨ marginUsedPct ≥ MARGIN_WARN_PCT) ∧
      (dailyLoss ≥ DAILY_MAX_LOSS * WARN_FRACTION ∨
       marginUsedPct ≥ MARGIN_WARN_PCT * WARN_FRACTION)) ∧
    (riskLevel dailyLoss marginUsedPct = .Normal ↔
      ¬(dailyLoss ≥ DAILY_MAX_LOSS ∨ marginUsedPct ≥ MARGIN_WARN_PCT) ∧
      ¬(dailyLoss ≥ DAILY_MAX_LOSS * WARN_FRACTION ∨
        marginUsedPct ≥ MARGIN_WARN_PCT * WARN_FRACTION)) := by
  unfold riskLevel
  split_ifs with h1 h2 <;> simp_all

/-- C3: `calcPnLPct` returns 0 when `avgPrice` is 0, and otherwise the
side-dependent percentage; in particular `calcPnLPct Buy 100 110 = 10` and
`calcPnLPct Sell 100 90 = 10`. -/
theorem calcPnLPct_cases (side : Side) (avgPrice ltp : ℚ) :
    (avgPrice = 0 → calcPnLPct side avgPrice ltp = 0) ∧
    (avgPrice ≠ 0 → calcPnLPct .Buy avgPrice ltp = (ltp - avgPrice) / avgPrice * 100) ∧
    (avgPrice ≠ 0 → calcPnLPct .Sell avgPrice ltp = (avgPrice - ltp) / avgPrice * 100) ∧
    calcPnLPct .Buy 100 110 = 10 ∧
    calcPnLPct .Sell 100 90 = 10 := by
  refine ⟨?_, ?_, ?_, ?_, ?_⟩
  · intro h; simp [calcPnLPct, h]
  · intro h; simp [calcPnLPct, h]
  · intro h; simp [calcPnLPct, h]
  · unfold calcPnLPct
    rw [if_neg (by norm_num), if_pos rfl]
    norm_num
  · unfold calcPnLPct
    rw [if_neg (by norm_num), if_neg (by decide)]
    norm_num

/-- C3 witness: the zero-average case and the Buy formula at 100/110. -/
theorem calcPnLPct_cases_witness :
    calcPnLPct .Buy 0 37 = 0 ∧
    calcPnLPct .Buy 100 110 = (110 - 100) / 100 * 100 := by
  exact ⟨(calcPnLPct_cases .Buy 0 37).1 rfl,
         (calcPnLPct_cases .Buy 100 110).2.1 (by norm_num)⟩

/-- C5: on close, the reconnect delay is `min(30000, 2^attempt * 500 + jitter)`
with `jitter ∈ [0, 300)`, the attempt counter is incremented afterwards, the
delays for attempts 0..3 lie in [500,800), [1000,1300), [2000,2300),
[4000,4300), and the delay never exceeds 30000 ms. -/
theorem reconnect_backoff_delay (attempt : ℕ) (jitter : ℚ)
    (h0 : 0 ≤ jitter) (h1 : jitter < 300) :
    (oncloseStep attempt jitter).1 = attempt + 1 ∧
    (oncloseStep attempt jitter).2 = delayOf attempt jitter ∧
    delayOf attempt jitter ≤ 30000 ∧
    (500 ≤ delayOf 0 jitter ∧ delayOf 0 jitter < 800) ∧
    (1000 ≤ delayOf 1 jitter ∧ delayOf 1 jitter < 1300) ∧
    (2000 ≤ delayOf 2 jitter ∧ delayOf 2 jitter < 2300) ∧
    (4000 ≤ delayOf 3 jitter ∧ delayOf 3 jitter < 4300) := by
  have key : ∀ c : ℚ, 0 < c → c + 300 ≤ 30000 →
      c ≤ min 30000 (c + jitter) ∧ min 30000 (c + jitter) < c + 300 := by
    intro c hc hcb
    exact ⟨le_min (by linarith) (by linarith),
           lt_of_le_of_lt (min_le_right _ _) (by linarith)⟩
  have e0 : delayOf 0 jitter = min 30000 (500 + jitter) := by norm_num [delayOf]
  have e1 : delayOf 1 jitter = min 30000 (1000 + jitter) := by norm_num [delayOf]
  have e2 : delayOf 2 jitter = min 30000 (2000 + jitter) := by norm_num [delayOf]
  have e3 : delayOf 3 jitter = min 30000 (4000 + jitter) := by norm_num [delayOf]
  refine ⟨rfl, rfl, min_le_left _ _, ?_, ?_, ?_, ?_⟩
  · rw [e0]; exact (key 500 (by norm_num) (by norm_num)).imp (by simpa using id) (by norm_num)
  · rw [e1]; exact (key 1000 (by norm_num) (by norm_num)).imp (by simpa using id) (by norm_num)
  · rw [e2]; exact (key 2000 (by norm_num) (by norm_num)).imp (by simpa using id) (by norm_num)
  · rw [e3]; exact (key 4000 (by norm_num) (by norm_num)).imp (by simpa using id) (by norm_num)

/-- C5 witness: attempt 0 with jitter 150. -/
theorem reconnect_backoff_delay_witness :
    (oncloseStep 0 150).1 = 0 + 1 ∧
    delayOf 0 150 ≤ 30000 ∧
    (500 ≤ delayOf 0 (150 : ℚ) ∧ delayOf 0 (150 : ℚ) < 800) := by
  have h := reconnect_backoff_delay 0 150 (by norm_num) (by norm_num)
  exact ⟨h.1, h.2.2.1, h.2.2.2.1⟩

/-- C4: applying a tick for instrument `sym` with price `p` maps every stored
trade whose symbol code contains the instrument name to the same trade with
only `ltp` replaced by the 2-decimal-rounded price, leaves non-matching trades
unchanged, preserves the list length, never changes `avgPrice` (nor symbol,
side, qty, status), and the tick branch of the message handler rewrites both
per-instrument trade lists with exactly this map. -/
theorem tick_updates_matching_trades (sym : Instrument) (p t : ℚ)
    (fmtTime : ℚ → String) (nowStr : String) (st : Store)
    (trades : List Trade) (i : ℕ) (tr : Trade) (h : trades[i]? = some tr) :
    (upd (instrName sym) p trades).length = trades.length ∧
    (containsSubstr tr.symbol (instrName sym) = true →
      (upd (instrName sym) p trades)[i]? = some { tr with ltp := round2 p }) ∧
    (containsSubstr tr.symbol (instrName sym) = false →
      (upd (instrName sym) p trades)[i]? = some tr) ∧
    (∀ tr', (upd (instrName sym) p trades)[i]? = some tr' →
      tr'.symbol = tr.symbol ∧ tr'.side = tr.side ∧ tr'.qty = tr.qty ∧
      tr'.avgPrice = tr.avgPrice ∧ tr'.status = tr.status) ∧
    (applyMsg fmtTime nowStr (.tick sym p t) st).tradesN
      = upd (instrName sym) p st.tradesN ∧
    (applyMsg fmtTime nowStr (.tick sym p t) st).tradesB
      = upd (instrName sym) p st.tradesB := by
  have hmap : (upd (instrName sym) p trades)[i]? =
      some (if containsSubstr tr.symbol (instrName sym) then
              { tr with ltp := round2 p } else tr) := by
    simp [upd, List.getElem?_map, h]
  refine ⟨by simp [upd], ?_, ?_, ?_, ?_, ?_⟩
  · intro hc; rw [hmap, hc]; simp
  · intro hc; rw [hmap, hc]; simp
  · intro tr' h'
    rw [hmap, Option.some.injEq] at h'
    subst h'
    split_ifs <;> simp
  · simp [applyMsg, apply_ite Store.tradesN]
  · simp [applyMsg, apply_ite Store.tradesB]

/-- C4 witness: a matching NIFTY option trade at index 0 gets its `ltp`
replaced by the rounded tick price. -/
theorem tick_updates_matching_trades_witness :
    (upd (instrName .NIFTY) 224 [⟨"NIFTY24SEP22500CE", .Buy, 50, 224, 224, "Executed"⟩])[0]?
      = some ⟨"NIFTY24SEP22500CE", .Buy, 50, 224, round2 224, "Executed"⟩ := by
  have h := tick_updates_matching_trades .NIFTY 224 0 (fun _ => "") ""
    ⟨0, 0, 0, 40, [], [], [], [], [], [], []⟩
    [⟨"NIFTY24SEP22500CE", .Buy, 50, 224, 224, "Executed"⟩] 0
    ⟨"NIFTY24SEP22500CE", .Buy, 50, 224, 224, "Executed"⟩ rfl
  exact h.2.1 (by decide)

/-- C10: since "BANKNIFTY" contains "NIFTY" as a substring, a NIFTY tick also
rewrites `ltp` on every trade whose symbol code embeds "BANKNIFTY" (as every
synthetically generated BANKNIFTY option symbol does), while a BANKNIFTY tick
leaves a NIFTY-only symbol untouched. -/
theorem nifty_tick_hits_banknifty_trades (s : String) (p : ℚ) :
    (containsSubstr s "BANKNIFTY" = true → containsSubstr s "NIFTY" = true) ∧
    upd (instrName .NIFTY) p [⟨"BANKNIFTY24SEP22500CE", .Buy, 50, 224, 224, "Executed"⟩]
      = [⟨"BANKNIFTY24SEP22500CE", .Buy, 50, 224, round2 p, "Executed"⟩] ∧
    upd (instrName .BANKNIFTY) p [⟨"NIFTY24SEP22500PE", .Sell, 50, 224, 224, "Executed"⟩]
      = [⟨"NIFTY24SEP22500PE", .Sell, 50, 224, 224, "Executed"⟩] := by
  refine ⟨?_, ?_, ?_⟩
  · intro h
    simp only [containsSubstr] at h ⊢
    have h1 : "BANKNIFTY".data <:+: s.data := of_decide_eq_true h
    have h2 : "NIFTY".data <:+: "BANKNIFTY".data := by decide
    exact decide_eq_true (h2.trans h1)
  · simp only [upd, instrName, List.map_cons, List.map_nil]
    rw [if_pos (by decide : containsSubstr "BANKNIFTY24SEP22500CE" "NIFTY" = true)]
  · simp only [upd, instrName, List.map_cons, List.map_nil]
    rw [if_neg ?_]
    simp only [Bool.not_eq_true]
    decide

/-- C10 witness: the synthetic BANKNIFTY call symbol contains "NIFTY". -/
theorem nifty_tick_hits_banknifty_trades_witness :
    containsSubstr "BANKNIFTY24SEP22500CE" "NIFTY" = true := by
  exact (nifty_tick_hits_banknifty_trades "BANKNIFTY24SEP22500CE" 0).1 (by decide)

/-- C7 counterexample: a signal-shaped frame with an empty symbol code, zero
quantity and negative price is nevertheless classified as a signal — the
classifier performs `typeof` checks only. -/
theorem signal_classifier_accepts_degenerate :
    isSignalMsg (.obj [("type", .str "signal"), ("instrument", .str "NIFTY"),
      ("payload", .obj [("symbol", .str ""), ("side", .str "Buy"),
        ("qty", .num 0), ("price", .num (-1)), ("status", .str "")])]) = true ∧
    asStreamMsg (.obj [("type", .str "signal"), ("instrument", .str "NIFTY"),
      ("payload", .obj [("symbol", .str ""), ("side", .str "Buy"),
        ("qty", .num 0), ("price", .num (-1)), ("status", .str "")])])
      = some (.signal .NIFTY ⟨"", .Buy, 0, -1, ""⟩) := by
  constructor <;> rfl

/-- C7 (amended): classification as a signal requires a known instrument and a
nested payload whose symbol is a string, side is "Buy" or "Sell", qty and
price are numbers, and status is a string; emptiness of the symbol and
positivity of qty/price are not checked. -/
theorem signal_classifier_shape (x : JsVal) (h : isSignalMsg x = true) :
    isObjVal x = true ∧
    strEq (getField x "type") "signal" = true ∧
    (strEq (getField x "instrument") "NIFTY" = true ∨
     strEq (getField x "instrument") "BANKNIFTY" = true) ∧
    isObjVal (getField x "payload") = true ∧
    isStrVal (getField (getField x "payload") "symbol") = true ∧
    (strEq (getField (getField x "payload") "side") "Buy" = true ∨
     strEq (getField (getField x "payload") "side") "Sell" = true) ∧
    isNumVal (getField (getField x "payload") "qty") = true ∧
    isNumVal (getField (getField x "payload") "price") = true ∧
    isStrVal (getField (getField x "payload") "status") = true := by
  simp only [isSignalMsg, Bool.and_eq_true, Bool.or_eq_true] at h
  tauto

/-- C7 witness: the synthetic executed BANKNIFTY signal is accepted and its
fields satisfy the shape conditions. -/
theorem signal_classifier_shape_witness :
    isObjVal (JsVal.obj [("type", .str "signal"), ("instrument", .str "BANKNIFTY"),
      ("payload", .obj [("symbol", .str "BANKNIFTY24SEP22500PE"), ("side", .str "Sell"),
        ("qty", .num 50), ("price", .num 224), ("status", .str "Executed")])]) = true ∧
    isNumVal (getField (getField (JsVal.obj [("type", .str "signal"),
      ("instrument", .str "BANKNIFTY"),
      ("payload", .obj [("symbol", .str "BANKNIFTY24SEP22500PE"), ("side", .str "Sell"),
        ("qty", .num 50), ("price", .num 224), ("status", .str "Executed")])])
      "payload") "qty") = true := by
  have h := signal_classifier_shape (JsVal.obj [("type", .str "signal"),
    ("instrument", .str "BANKNIFTY"),
    ("payload", .obj [("symbol", .str "BANKNIFTY24SEP22500PE"), ("side", .str "Sell"),
      ("qty", .num 50), ("price", .num 224), ("status", .str "Executed")])]) (by rfl)
  exact ⟨h.1, h.2.2.2.2.2.2.1⟩

/-- C8 counterexample: a frame carrying only `type: "risk"` — neither risk
field present — is classified as a risk message, contradicting the claim that
at least one numeric risk field is required. -/
theorem risk_classifier_accepts_fieldless :
    isRiskMsg (.obj [("type", .str "risk")]) = true ∧
    asStreamMsg (.obj [("type", .str "risk")]) = some (.risk none none) := by
  constructor <;> rfl

/-- C8 (amended): a value is classified as a risk message iff it is an object
of type "risk" whose two risk fields are each either numeric or absent —
neither is required to be present; applying a risk message overwrites exactly
the present fields, leaves an absent field's stored value unchanged, appends
one system log line noting the update, and touches nothing else in the
store. -/
theorem risk_apply_overwrites_present_fields (x : JsVal) (fmtTime : ℚ → String)
    (nowStr : String) (dl m : Option ℚ) (st : Store) :
    (isRiskMsg x = true ↔
      (isObjVal x = true ∧ strEq (getField x "type") "risk" = true ∧
       (isNumVal (getField x "dailyLoss") = true ∨ isUndefVal (getField x "dailyLoss") = true) ∧
       (isNumVal (getField x "marginUsedPct") = true ∨ isUndefVal (getField x "marginUsedPct") = true))) ∧
    (applyMsg fmtTime nowStr (.risk dl m) st).dailyLoss = dl.getD st.dailyLoss ∧
    (applyMsg fmtTime nowStr (.risk dl m) st).marginUsedPct = m.getD st.marginUsedPct ∧
    (applyMsg fmtTime nowStr (.risk dl m) st).sysLogs
      = pushBounded st.sysLogs (nowStr ++ " risk update") MAX_SYS_LOGS ∧
    (applyMsg fmtTime nowStr (.risk dl m) st).nifty = st.nifty ∧
    (applyMsg fmtTime nowStr (.risk dl m) st).bankNifty = st.bankNifty ∧
    (applyMsg fmtTime nowStr (.risk dl m) st).signalsN = st.signalsN ∧
    (applyMsg fmtTime nowStr (.risk dl m) st).tradesN = st.tradesN ∧
    (applyMsg fmtTime nowStr (.risk dl m) st).logsN = st.logsN ∧
    (applyMsg fmtTime nowStr (.risk dl m) st).signalsB = st.signalsB ∧
    (applyMsg fmtTime nowStr (.risk dl m) st).tradesB = st.tradesB ∧
    (applyMsg fmtTime nowStr (.risk dl m) st).logsB = st.logsB := by
  refine ⟨by simp only [isRiskMsg, Bool.and_eq_true, Bool.or_eq_true]; tauto,
    ?_, ?_, ?_, ?_, ?_, ?_, ?_, ?_, ?_, ?_, ?_⟩ <;>
    cases dl <;> cases m <;> simp [applyMsg, Option.getD]

/-- C8 witness: a frame carrying only `dailyLoss` is classified as a risk
message, updates that field, and leaves the stored margin percentage at its
previous value. -/
theorem risk_apply_overwrites_present_fields_witness :
    isRiskMsg (.obj [("type", .str "risk"), ("dailyLoss", .num 1234)]) = true ∧
    (applyMsg (fun _ => "") "12:00:00" (.risk (some 1234) none)
        ⟨0, 0, 0, 40, [], [], [], [], [], [], []⟩).dailyLoss = (some (1234 : ℚ)).getD 0 ∧
    (applyMsg (fun _ => "") "12:00:00" (.risk (some 1234) none)
        ⟨0, 0, 0, 40, [], [], [], [], [], [], []⟩).marginUsedPct = (none : Option ℚ).getD 40 := by
  have h := risk_apply_overwrites_present_fields
    (.obj [("type", .str "risk"), ("dailyLoss", .num 1234)])
    (fun _ => "") "12:00:00" (some 1234) none
    ⟨0, 0, 0, 40, [], [], [], [], [], [], []⟩
  exact ⟨h.1.mpr (by exact ⟨rfl, rfl, Or.inl rfl, Or.inr rfl⟩), h.2.1, h.2.2.1⟩

/-- C9: a frame matching none of the three message shapes is dropped
silently — the classifier returns `none`, the handler is never invoked and
the store (prices, signal/trade/log buffers, risk fields, system logs) is
left exactly as it was. -/
theorem malformed_frames_dropped (fmtTime : ℚ → String) (nowStr : String)
    (x : JsVal) (st : Store) (h : asStreamMsg x = none) :
    stepFrame fmtTime nowStr x st = st := by
  simp [stepFrame, h]

/-- C9 witness: a signal-shaped frame with an unknown side enum value "Hold"
fails classification and leaves a concrete store unchanged. -/
theorem malformed_frames_dropped_witness :
    stepFrame (fun _ => "") "" (.obj [("type", .str "signal"),
      ("instrument", .str "NIFTY"),
      ("payload", .obj [("symbol", .str "NIFTY24SEP22500CE"), ("side", .str "Hold"),
        ("qty", .num 50), ("price", .num 224), ("status", .str "Executed")])])
      ⟨0, 0, 0, 40, [], [], [], [], [], [], []⟩
      = ⟨0, 0, 0, 40, [], [], [], [], [], [], []⟩ := by
  exact malformed_frames_dropped (fun _ => "") "" _ _ (by rfl)

theorem thRun_state_inv {α : Type} (interval : ℚ) (events : List (ThEvent α)) :
    ∀ (s : ThState α) (d : α),
      (∀ v, s.pending = some v → v = d) →
      (s.pending = none → s.throttled = d) →
      (∀ v, (thRun interval s events).1.pending = some v → v = lastChangeD d events) ∧
      ((thRun interval s events).1.pending = none →
        (thRun interval s events).1.throttled = lastChangeD d events) := by
  induction events with
  | nil =>
    intro s d h1 h2
    simpa [thRun, lastChangeD] using ⟨h1, h2⟩
  | cons e es ih =>
    intro s d h1 h2
    have hstate : (thRun interval s (e :: es)).1
        = (thRun interval (thStep interval s e).1 es).1 := by
      simp [thRun]
    rw [hstate]
    cases e with
    | change v t =>
      have hl : lastChangeD d (.change v t :: es) = lastChangeD v es := by
        simp [lastChangeD]
      rw [hl]
      by_cases hc : t - s.lastTime ≥ interval
      · have hs : (thStep interval s (.change v t)).1 = ⟨v, t, none⟩ := by
          simp [thStep, hc]
        rw [hs]
        exact ih _ v (fun w hw => nomatch hw) (fun _ => rfl)
      · have hs : (thStep interval s (.change v t)).1 = { s with pending := some v } := by
          simp [thStep, hc]
        rw [hs]
        exact ih _ v (fun w hw => by cases hw; rfl) (fun hw => nomatch hw)
    | raf t =>
      have hl : lastChangeD d (.raf t :: es) = lastChangeD d es := by
        simp [lastChangeD]
      rw [hl]
      cases hp : s.pending with
      | some v =>
        have hv := h1 v hp
        have hs : (thStep interval s (.raf t)).1 = ⟨v, t, none⟩ := by
          simp [thStep, hp]
        rw [hs]
        exact ih _ d (fun w hw => nomatch hw) (fun _ => hv)
      | none =>
        have hs : (thStep interval s (.raf t)).1 = s := by
          simp [thStep, hp]
        rw [hs]
        exact ih _ d h1 h2

theorem thRun_pub_count {α : Type} (interval : ℚ) (events : List (ThEvent α)) :
    ∀ s : ThState α, (thRun interval s events).2.length ≤ events.length := by
  induction events with
  | nil => intro s; simp [thRun]
  | cons e es ih =>
    intro s
    have hsplit : (thRun interval s (e :: es)).2
        = (thStep interval s e).2.toList ++ (thRun interval (thStep interval s e).1 es).2 := by
      simp [thRun]
    rw [hsplit]
    have h1 : (thStep interval s e).2.toList.length ≤ 1 := by
      cases (thStep interval s e).2 <;> simp
    have h2 := ih (thStep interval s e).1
    simp only [List.length_append, List.length_cons]
    omega

theorem thRun_append_state {α : Type} (interval : ℚ) (es1 es2 : List (ThEvent α)) :
    ∀ s : ThState α,
      (thRun interval s (es1 ++ es2)).1 = (thRun interval (thRun interval s es1).1 es2).1 := by
  induction es1 with
  | nil => intro s; simp [thRun]
  | cons e es ih => intro s; simp [thRun, ih]

/-- C6 counterexample: with interval 250 ms, a leading-edge publish at t=1000
and the deferred animation-frame publish of the coalesced value at t=1016
both land inside the window [1000, 1250): two publishes within a single
interval, so the throttle does not limit output to one publish per
interval. -/
theorem throttle_double_publish :
    (thRun 250 (⟨0, 0, none⟩ : ThState ℕ)
        [.change 1 1000, .change 2 1010, .raf 1016]).2
      = [(1000, 1), (1016, 2)] ∧
    pubsInWindow ((thRun 250 (⟨0, 0, none⟩ : ThState ℕ)
        [.change 1 1000, .change 2 1010, .raf 1016]).2) 1000 250 = 2 ∧
    (1016 : ℚ) - 1000 < 250 := by
  have h : (thRun 250 (⟨0, 0, none⟩ : ThState ℕ)
      [.change 1 1000, .change 2 1010, .raf 1016]).2 = [(1000, 1), (1016, 2)] := by
    norm_num [thRun, thStep]
  refine ⟨h, ?_, by norm_num⟩
  rw [h]
  norm_num [pubsInWindow, List.filter]

/-- C6 (amended): each processed event (value change or animation-frame
callback) causes at most one publish, and the final value of any burst is
published by the first animation-frame callback after the burst ends; the
deferred publish fires at the next animation frame, which can fall within the
same 250 ms interval as the preceding leading-edge publish, so output is rate
limited to the frame rate rather than to one publish per interval. -/
theorem throttle_coalesces_to_frames {α : Type} (interval : ℚ) (s0 : ThState α)
    (events : List (ThEvent α)) (t : ℚ) (h : s0.pending = none) :
    (thRun interval s0 (events ++ [.raf t])).1.throttled
      = lastChangeD s0.throttled events ∧
    (thRun interval s0 (events ++ [.raf t])).2.length ≤ events.length + 1 := by
  constructor
  · rw [thRun_append_state]
    have hinv := thRun_state_inv interval events s0 s0.throttled
      (fun v hv => by rw [h] at hv; exact (Option.noConfusion hv)) (fun _ => rfl)
    cases hp : (thRun interval s0 events).1.pending with
    | some v =>
      have hv := hinv.1 v hp
      simp [thRun, thStep, hp, hv]
    | none =>
      have hthr := hinv.2 hp
      simp [thRun, thStep, hp, hthr]
  · have hcount := thRun_pub_count interval (events ++ [.raf t]) s0
    simpa using hcount

/-- C6 witness: a single change at t=100 followed by an animation frame at
t=120 publishes the changed value. -/
theorem throttle_coalesces_to_frames_witness :
    (thRun 250 (⟨0, 0, none⟩ : ThState ℕ) ([.change 5 100] ++ [.raf 120])).1.throttled
      = lastChangeD 0 [ThEvent.change 5 100] ∧
    (thRun 250 (⟨0, 0, none⟩ : ThState ℕ) ([.change 5 100] ++ [.raf 120])).2.length
      ≤ [ThEvent.change 5 100].length + 1 := by
  exact throttle_coalesces_to_frames 250 ⟨0, 0, none⟩ [.change 5 100] 120 rfl
